import Mathlib

/-!
Verification of the transit-filter-api request-mediation pipeline.

This file gives a shallow embedding, in Lean, of the parts of the
transit-filter-api source that the frozen claims C1..C10 are about:

* the multi-tier rate limiter (`src/utils/rateLimit.js`),
* the retry engine `retryRequest` (`src/api/completions.js` lines 125-197),
* the per-provider circuit breaker (`src/api/config.js` lines 213-276),
* the global burst counter (`src/api/config.js` lines 26-76),
* the moderation verdict handling of `performModeration`
  (`src/api/completions.js` lines 597-668),
* the chat-completions dispatcher together with the server router's
  rate-limit gate (`src/api/completions.js` lines 1231-1361 and
  `src/server.js` lines 44-58 plus `src/utils/rateLimitMiddleware`),
* the oversize sampler `extractRandomSegments` and
  `calculateTotalLength` (`src/api/completions.js` lines 886-1118).

Machine arithmetic: the JavaScript source computes all the quantities
modelled here with exact double-precision results in the ranges that can
occur (counters and millisecond durations far below 2^53), so counters and
lengths are modelled as `Nat` and wall-clock quantities in the retry engine
as `ℚ`.  The floating-point expressions `x * 0.25`, `x * 0.5` and `x * 1.5`
are exact in binary; `Math.floor(x * 0.8)` and `Math.floor(x / 3.5)` agree
with the rational floors `x * 4 / 5` and `x * 2 / 7` for every value `x`
that reaches them (x ≤ 30000, where the accumulated double rounding error
is far below the distance to the nearest integer crossing).
-/

set_option autoImplicit false

namespace TransitFilter

/-! ### Rate limiter (src/utils/rateLimit.js) -/

/-- One rate-limit counter cell: a request count and the start of its minute
window (ms epoch).  This mirrors one parallel pair of entries of
`requestCounts`/`windowStartTimes` (and the ip and global-ip analogues) in
`src/utils/rateLimit.js`. -/
structure CounterCell where
  count : Nat
  windowStart : Nat
deriving DecidableEq, Repr

/-- The slice of `RateLimiter` state that a single `(path, ip)` pair touches:
the route counter, the ip+route counter and the global-ip counter.  A field is
`none` when the corresponding map entry is absent (the source initializes
absent entries on first access, lines 38-58). -/
structure RLState where
  path : Option CounterCell
  ipPath : Option CounterCell
  globalIp : Option CounterCell
deriving DecidableEq, Repr

/-- Initialization of an absent map entry: count 0, window starting now. -/
def initCell (now : Nat) : Option CounterCell → CounterCell
  | none => ⟨0, now⟩
  | some c => c

/-- Window expiry (lines 60-76): a cell is reset when `now - windowStart > 60000`. -/
def expireCell (now : Nat) (c : CounterCell) : CounterCell :=
  if 60000 < now - c.windowStart then ⟨0, now⟩ else c

/-- The effective per-route limit `this.limits[pathKey] || 60`: a zero (falsy)
configured limit falls back to 60. -/
def effPathLimit (pathLimit : Nat) : Nat :=
  if pathLimit = 0 then 60 else pathLimit

/-- `isRateLimited(path, ip)` (lines 32-99) for one `(path, ip)` pair: expire
the three windows, increment all three counters, then compare each counter
against its tier limit.  The ip+route tier limit is
`Math.floor(pathLimit * 0.25) = pathLimit / 4` (0.25 is exact in binary).
Returns the limited verdict together with the updated counters. -/
def isRateLimited (pathLimit globalIpLimit now : Nat) (s : RLState) : Bool × RLState :=
  let p0 := expireCell now (initCell now s.path)
  let ip0 := expireCell now (initCell now s.ipPath)
  let g0 := expireCell now (initCell now s.globalIp)
  let p := { p0 with count := p0.count + 1 }
  let ip := { ip0 with count := ip0.count + 1 }
  let g := { g0 with count := g0.count + 1 }
  let pl := effPathLimit pathLimit
  let ipPathLimit := pl / 4
  let limited :=
    decide (pl < p.count) || decide (ipPathLimit < ip.count) || decide (globalIpLimit < g.count)
  (limited, ⟨some p, some ip, some g⟩)

/-- One tier of the structured info returned by `getRateLimitInfo`. -/
structure TierInfo where
  current : Nat
  limit : Nat
  remaining : Nat
deriving DecidableEq, Repr

/-- The object returned by `getRateLimitInfo` (lines 107-150), used for the
`X-RateLimit-*` headers and the 429 error details. -/
structure RateLimitInfo where
  current : Nat
  limit : Nat
  remaining : Nat
  reset : Nat
  pathTier : TierInfo
  ipPathTier : TierInfo
  globalIpTier : TierInfo
deriving DecidableEq, Repr

/-- Counter read with absent-entry default 0 (`|| 0` in the source). -/
def cellCount : Option CounterCell → Nat
  | none => 0
  | some c => c.count

/-- Window-start read with absent-entry default `Date.now()`. -/
def cellWindowStart (now : Nat) : Option CounterCell → Nat
  | none => now
  | some c => c.windowStart

/-- `getRateLimitInfo(path, ip)` (lines 107-150).  Note the ip+route tier limit
here is `Math.max(Math.floor(pathLimit * 1.5), pathLimit) = max (3*pl/2) pl`
(1.5 is exact in binary), unlike the `pathLimit / 4` used by `isRateLimited`.
`remaining` is `Math.max(0, limit - count)` per tier (Nat subtraction), and
`reset` is `Math.ceil(windowStart / 1000) + 60` minimized over the tiers. -/
def getRateLimitInfo (pathLimit globalIpLimit now : Nat) (s : RLState) : RateLimitInfo :=
  let pl := effPathLimit pathLimit
  let ipPathLimit := max (3 * pl / 2) pl
  let pathRemaining := pl - cellCount s.path
  let ipPathRemaining := ipPathLimit - cellCount s.ipPath
  let globalIpRemaining := globalIpLimit - cellCount s.globalIp
  let remaining := min pathRemaining (min ipPathRemaining globalIpRemaining)
  let pathReset := (cellWindowStart now s.path + 999) / 1000 + 60
  let ipPathReset := (cellWindowStart now s.ipPath + 999) / 1000 + 60
  let globalIpReset := (cellWindowStart now s.globalIp + 999) / 1000 + 60
  let reset := min pathReset (min ipPathReset globalIpReset)
  { current := cellCount s.path
    limit := pl
    remaining := remaining
    reset := reset
    pathTier := ⟨cellCount s.path, pl, pathRemaining⟩
    ipPathTier := ⟨cellCount s.ipPath, ipPathLimit, ipPathRemaining⟩
    globalIpTier := ⟨cellCount s.globalIp, globalIpLimit, globalIpRemaining⟩ }

/-- C5: the route+ip tier limit is floor(route_rpm × 0.25) at enforcement but
NOT at reporting.  With the default CHAT_RPM 60 and all three counters at 20
(window fresh), `isRateLimited` increments to 21 and rejects the request
because 21 exceeds the enforcement tier limit floor(60 × 0.25) = 15, yet
`getRateLimitInfo` on the very same state reports an ip+route tier limit of
max(floor(60 × 1.5), 60) = 90 with remaining 69, and an overall remaining of
39 — so the 429 response and the `X-RateLimit-*` headers describe a limit the
enforcement never used. -/
theorem c5_ipPath_limit_mismatch :
    (isRateLimited 60 300 1000 ⟨some ⟨20, 1000⟩, some ⟨20, 1000⟩, some ⟨20, 1000⟩⟩).1 = true ∧
    (getRateLimitInfo 60 300 1000
      (isRateLimited 60 300 1000 ⟨some ⟨20, 1000⟩, some ⟨20, 1000⟩, some ⟨20, 1000⟩⟩).2).ipPathTier.limit
      = 90 ∧
    (getRateLimitInfo 60 300 1000
      (isRateLimited 60 300 1000 ⟨some ⟨20, 1000⟩, some ⟨20, 1000⟩, some ⟨20, 1000⟩⟩).2).ipPathTier.remaining
      = 69 ∧
    (getRateLimitInfo 60 300 1000
      (isRateLimited 60 300 1000 ⟨some ⟨20, 1000⟩, some ⟨20, 1000⟩, some ⟨20, 1000⟩⟩).2).remaining
      = 39 := by
  decide

/-! ### Retry engine (src/api/completions.js lines 125-197) -/

/-- An upstream error as `retryRequest` sees it: the optional `nonRetryable`
marker set by callers, and the HTTP status of `error.response` when present. -/
structure RErr where
  nonRetryable : Bool
  status : Option Nat
deriving DecidableEq, Repr

/-- The statuses the source lists as non-retryable (completions.js line 152). -/
def nonRetryableStatuses : List Nat := [400, 401, 403, 404, 422]

/-- The non-retryable test of completions.js line 153:
`error.nonRetryable || (error.response && nonRetryableStatuses.includes(error.response.status))`.
In the source this test guards only a log line — both branches of `tryRequest`
rethrow the same error object, so the predicate never influences how the
outer retry loop proceeds. -/
def isNonRetryableErr (e : RErr) : Bool :=
  e.nonRetryable ||
    (match e.status with
      | some s => nonRetryableStatuses.contains s
      | none => false)

/-- The capped exponential backoff of completions.js lines 188-191:
`Math.min(retryDelay * Math.pow(1.5, retryCount - 1), 10000)`. -/
def jsSleep (retryDelay : ℚ) (retryCount : Nat) : ℚ :=
  min (retryDelay * (3 / 2) ^ (retryCount - 1)) 10000

/-- The `while (true)` retry loop of `retryRequest` (lines 163-196), with
retry enabled.  `fails n = some e` means the n-th invocation of `requestFn`
raises `e`; `none` means it succeeds.  `dur n` is the wall-clock duration of
attempt `n` (the source measures `elapsedTime = Date.now() - startTime` in
the catch handler, so elapsed time accumulates attempt durations and sleeps).
`k` is `retryCount` (failures so far) and the result is the total number of
attempts performed.  The loop stops on success, or when
`elapsed + retryDelay >= maxTime` or `retryCount >= maxRetryCount`; note that
it does NOT consult the error's non-retryable marker.  `retryCount` strictly
increases and the loop exits once it reaches `maxRetryCount`, so the
recursion is driven by the fuel `maxRetryCount - retryCount`; the fuel-zero
branch is reached only in the degenerate `maxRetryCount = 0` case, where the
source also stops after the first attempt. -/
def retryGo (retryDelay maxTime : ℚ) (maxRetryCount : Nat) (fails : Nat → Option RErr)
    (dur : Nat → ℚ) : Nat → Nat → ℚ → Nat
  | 0, k, _ => k + 1
  | fuel + 1, k, elapsed =>
    match fails (k + 1) with
    | none => k + 1
    | some _ =>
      let elapsed2 := elapsed + dur (k + 1)
      if maxTime ≤ elapsed2 + retryDelay ∨ maxRetryCount ≤ k + 1 then k + 1
      else retryGo retryDelay maxTime maxRetryCount fails dur fuel (k + 1)
        (elapsed2 + jsSleep retryDelay (k + 1))

/-- `retryRequest(requestFn, maxTime)` (lines 125-197), returning the number
of attempts (invocations of `requestFn`) it performs.  When
`config.timeouts.enableRetry !== true` the function runs the request exactly
once (lines 127-136, marking any error non-retryable and rethrowing). -/
def retryAttempts (enableRetry : Bool) (retryDelay : ℚ) (maxRetryCount : Nat) (maxTime : ℚ)
    (fails : Nat → Option RErr) (dur : Nat → ℚ) : Nat :=
  if enableRetry then retryGo retryDelay maxTime maxRetryCount fails dur maxRetryCount 0 0
  else 1

/-- An upstream failure whose HTTP status is 400. -/
def httpErr400 : RErr := ⟨false, some 400⟩

/-- C2: with retry enabled and the default budget (RETRY_DELAY 2000 ms,
MAX_RETRY_COUNT 5, MAX_RETRY_TIME 90000 ms), an upstream that always answers
HTTP 400 — non-retryable by the source's own predicate — is nevertheless
retried until the count budget is exhausted: five attempts are performed,
because the `while (true)` loop of `retryRequest` checks only the time and
count budget and never the non-retryable marker (the marker only guards a
log line inside `tryRequest`, which rethrows the same error either way). -/
theorem c2_nonretryable_error_still_retried :
    isNonRetryableErr httpErr400 = true ∧
    retryAttempts true 2000 5 90000 (fun _ => some httpErr400) (fun _ => 0) = 5 := by
  constructor
  · decide
  · norm_num [retryAttempts, retryGo, jsSleep]

/-- The retry loop performs at most `max (retryCount + 1) maxRetryCount`
attempts from a state with `retryCount = k`: another attempt is scheduled
only while `retryCount < maxRetryCount`. -/
theorem retryGo_le_max_count (retryDelay maxTime : ℚ) (maxRetryCount : Nat)
    (fails : Nat → Option RErr) (dur : Nat → ℚ) :
    ∀ (fuel k : Nat) (e : ℚ), retryGo retryDelay maxTime maxRetryCount fails dur fuel k e
      ≤ max (k + 1) maxRetryCount := by
  intro fuel
  induction fuel with
  | zero => intro k e; simp [retryGo]
  | succ n ih =>
    intro k e
    rw [retryGo]
    cases fails (k + 1) with
    | none => simp
    | some err =>
      simp only
      split
      · simp
      · rename_i hcond
        have hk : k + 1 < maxRetryCount := by
          rcases not_or.mp hcond with ⟨-, h2⟩
          omega
        calc retryGo retryDelay maxTime maxRetryCount fails dur n (k + 1) _
            ≤ max (k + 2) maxRetryCount := ih _ _
          _ = maxRetryCount := by omega
          _ ≤ max (k + 1) maxRetryCount := le_max_right _ _

/-- Each backoff sleep lasts at least `retryDelay` when the base delay does
not exceed the 10000 ms cap. -/
theorem jsSleep_ge (retryDelay : ℚ) (n : Nat) (h0 : 0 ≤ retryDelay)
    (hcap : retryDelay ≤ 10000) : retryDelay ≤ jsSleep retryDelay n := by
  unfold jsSleep
  refine le_min ?_ hcap
  calc retryDelay = retryDelay * 1 := (mul_one _).symm
    _ ≤ retryDelay * (3 / 2) ^ (n - 1) := by
        refine mul_le_mul_of_nonneg_left ?_ h0
        exact one_le_pow₀ (by norm_num)

/-- Time-budget bound for the retry loop: when the base delay is positive and
below the 10000 ms cap and attempt durations are nonnegative, a state with
`retryCount = k` and `elapsed ≥ k * retryDelay` performs at most
`max (k + 1) ⌈maxTime / retryDelay⌉` attempts, because every inter-attempt
sleep lasts at least `retryDelay` and the loop stops once
`elapsed + retryDelay ≥ maxTime`. -/
theorem retryGo_le_ceil (retryDelay maxTime : ℚ) (maxRetryCount : Nat)
    (fails : Nat → Option RErr) (dur : Nat → ℚ)
    (hrd : 0 < retryDelay) (hcap : retryDelay ≤ 10000) (hdur : ∀ n, 0 ≤ dur n) :
    ∀ (fuel k : Nat) (e : ℚ), (k : ℚ) * retryDelay ≤ e →
      (retryGo retryDelay maxTime maxRetryCount fails dur fuel k e : ℤ)
        ≤ max (k + 1 : ℤ) ⌈maxTime / retryDelay⌉ := by
  intro fuel
  induction fuel with
  | zero =>
    intro k e _
    rw [retryGo]
    exact le_max_of_le_left (by exact_mod_cast le_refl (k + 1 : ℤ))
  | succ n ih =>
    intro k e he
    rw [retryGo]
    cases fails (k + 1) with
    | none =>
      exact le_max_of_le_left (by exact_mod_cast le_refl (k + 1 : ℤ))
    | some err =>
      simp only
      split
      · exact le_max_of_le_left (by exact_mod_cast le_refl (k + 1 : ℤ))
      · rename_i hcond
        rcases not_or.mp hcond with ⟨h1, -⟩
        have htime : e + dur (k + 1) + retryDelay < maxTime := lt_of_not_le h1
        have hstep : ((k : ℚ) + 1) * retryDelay < maxTime := by
          have hd := hdur (k + 1)
          nlinarith
        have hceil : (k : ℤ) + 2 ≤ ⌈maxTime / retryDelay⌉ := by
          have hlt : ((k : ℚ) + 1) < maxTime / retryDelay :=
            (lt_div_iff₀ hrd).mpr hstep
          have : ((k : ℤ) + 1 : ℤ) < ⌈maxTime / retryDelay⌉ := by
            rw [Int.lt_ceil]
            exact_mod_cast hlt
          omega
        have he2 : ((k + 1 : Nat) : ℚ) * retryDelay
            ≤ e + dur (k + 1) + jsSleep retryDelay (k + 1) := by
          have hs := jsSleep_ge retryDelay (k + 1) (le_of_lt hrd) hcap
          have hd := hdur (k + 1)
          push_cast
          nlinarith
        calc (retryGo retryDelay maxTime maxRetryCount fails dur n (k + 1) _ : ℤ)
            ≤ max ((k + 1 : Nat) + 1 : ℤ) ⌈maxTime / retryDelay⌉ := ih _ _ he2
          _ = ⌈maxTime / retryDelay⌉ := by
              refine max_eq_right ?_
              push_cast
              omega
          _ ≤ max (k + 1 : ℤ) ⌈maxTime / retryDelay⌉ := le_max_right _ _

/-- C8 (amended): for every invocation of retryRequest, (a) with
`enableRetry = false` exactly one attempt is made; (b) with retry enabled the
number of attempts is at most `max 1 maxRetryCount`; and (c) when moreover
`0 < retryDelay ≤ 10000` (the backoff cap) and attempt durations are
nonnegative, the number of attempts is also at most
`max 1 ⌈maxRetryTime / retryDelay⌉`.  The sleep before retry n+1 is
`min(retryDelay × 1.5^(n−1), 10000)` (`jsSleep` in this embedding, exactly
the claimed formula).  The claimed unconditional bound
`min(maxRetryCount, ⌈maxRetryTime/retryDelay⌉)` fails when `retryDelay`
exceeds the 10000 ms sleep cap (see the counterexample) or when
`maxRetryCount = 0`; under `1 ≤ maxRetryCount` and `retryDelay ≤ 10000` the
two bounds here combine into exactly the claimed minimum. -/
theorem c8_retry_attempt_bounds (retryDelay maxTime : ℚ) (maxRetryCount : Nat)
    (fails : Nat → Option RErr) (dur : Nat → ℚ) :
    retryAttempts false retryDelay maxRetryCount maxTime fails dur = 1 ∧
    retryAttempts true retryDelay maxRetryCount maxTime fails dur ≤ max 1 maxRetryCount ∧
    (0 < retryDelay → retryDelay ≤ 10000 → (∀ n, 0 ≤ dur n) →
      (retryAttempts true retryDelay maxRetryCount maxTime fails dur : ℤ)
        ≤ max 1 ⌈maxTime / retryDelay⌉) := by
  refine ⟨rfl, ?_, ?_⟩
  · have h := retryGo_le_max_count retryDelay maxTime maxRetryCount fails dur maxRetryCount 0 0
    simpa [retryAttempts] using h
  · intro hrd hcap hdur
    have h := retryGo_le_ceil retryDelay maxTime maxRetryCount fails dur hrd hcap hdur
      maxRetryCount 0 0 (by simp)
    simpa [retryAttempts] using h

/-- Witness for c8_retry_attempt_bounds at the default configuration
(retryDelay 2000, maxRetryCount 5, maxRetryTime 90000) with an upstream that
always fails instantly. -/
theorem c8_retry_attempt_bounds_witness :
    retryAttempts false 2000 5 90000 (fun _ => some httpErr400) (fun _ => 0) = 1 ∧
    (retryAttempts true 2000 5 90000 (fun _ => some httpErr400) (fun _ => 0) : ℤ)
      ≤ max 1 ⌈(90000 : ℚ) / 2000⌉ := by
  refine ⟨(c8_retry_attempt_bounds 2000 90000 5 (fun _ => some httpErr400) (fun _ => 0)).1, ?_⟩
  exact (c8_retry_attempt_bounds 2000 90000 5 (fun _ => some httpErr400) (fun _ => 0)).2.2
    (by norm_num) (by norm_num) (fun n => le_refl 0)

set_option maxRecDepth 8000 in
set_option maxHeartbeats 1000000 in
/-- C8 counterexample: with RETRY_DELAY 20000 ms (above the 10000 ms backoff
cap), MAX_RETRY_COUNT 100 and MAX_RETRY_TIME 90000 ms, every inter-attempt
sleep is capped at 10000 ms, so instantly-failing attempts accumulate elapsed
time of only 10000 ms per retry: the loop performs 8 attempts, exceeding the
claimed bound min(maxRetryCount, ⌈maxRetryTime/retryDelay⌉) = min(100, 5) = 5. -/
theorem c8_claimed_bound_counterexample :
    (⌈(90000 : ℚ) / 20000⌉ = 5) ∧
    retryAttempts true 20000 100 90000 (fun _ => some httpErr400) (fun _ => 0) = 8 ∧
    ¬ retryAttempts true 20000 100 90000 (fun _ => some httpErr400) (fun _ => 0) ≤ min 100 5 := by
  have h8 : retryAttempts true 20000 100 90000 (fun _ => some httpErr400) (fun _ => 0) = 8 := by
    norm_num [retryAttempts, retryGo, jsSleep]
  refine ⟨by norm_num [Int.ceil_eq_iff], h8, ?_⟩
  rw [h8]
  norm_num

/-! ### Circuit breaker (src/api/config.js lines 213-276) -/

/-- The mutable health record of the primary provider
(`config.serviceHealth.secondProvider`, config.js lines 127-134).  The
moderation provider's record holds no breaker fields at all (line 125). -/
structure Health where
  failureCount : Nat
  lastFailureTime : Nat
  lastCheckTime : Nat
  circuitBreakerTripped : Bool
  circuitBreakerResetTime : Nat
deriving DecidableEq, Repr

/-- `recordServiceFailure(provider)` (config.js lines 247-276).  For
`'firstProvider'` the function returns immediately without touching any state
(lines 249-251, per its comment only the primary provider's failures are
recorded).  For the primary provider it resets a stale count (older than
`errorWindow`), increments, stamps `lastFailureTime`, and trips the breaker
for 60 s (zeroing the count) once the count exceeds `maxErrors`. -/
def recordServiceFailure (provider : String) (maxErrors errorWindow now : Nat)
    (h : Health) : Health :=
  if provider == "firstProvider" then h
  else
    let h1 := if 0 < h.lastFailureTime ∧ errorWindow < now - h.lastFailureTime then
        { h with failureCount := 0 }
      else h
    let h2 := { h1 with failureCount := h1.failureCount + 1, lastFailureTime := now,
                        lastCheckTime := now }
    if maxErrors < h2.failureCount then
      { h2 with circuitBreakerTripped := true, circuitBreakerResetTime := now + 60000,
                failureCount := 0 }
    else h2

/-- `checkCircuitBreaker(provider)` (config.js lines 213-244).  For
`'firstProvider'` it consults — and lazily resets — the PRIMARY provider's
breaker: the moderation path is considered unavailable exactly when the
primary breaker is open.  Returns the allow verdict together with the
(possibly lazily reset) primary health. -/
def checkCircuitBreaker (provider : String) (now : Nat) (second : Health) : Bool × Health :=
  if provider == "firstProvider" then
    let second2 := if second.circuitBreakerTripped ∧ second.circuitBreakerResetTime < now then
        { second with circuitBreakerTripped := false, failureCount := 0 }
      else second
    (!second2.circuitBreakerTripped, second2)
  else
    if second.circuitBreakerTripped ∧ second.circuitBreakerResetTime < now then
      (true, { second with circuitBreakerTripped := false, failureCount := 0 })
    else (!second.circuitBreakerTripped, second)

/-- C7 counterexample: performModeration's catch handler calls
`recordServiceFailure('firstProvider')` for every non-violation moderation
error (completions.js line 642), but that call returns with no state change
(config.js lines 249-251): on a health record with 3 accumulated failures the
count stays 3 instead of incrementing to 4. -/
theorem c7_counterexample :
    recordServiceFailure "firstProvider" 100 60000 5000 ⟨3, 1000, 1000, false, 0⟩
      = ⟨3, 1000, 1000, false, 0⟩ := by
  decide

/-- C7 (amended): errors raised while calling the moderation provider —
violations and non-violations alike — leave the shared circuit-breaker
failure state unchanged, because `recordServiceFailure('firstProvider')` is a
no-op; the breaker is shared only in the allow direction
(`checkCircuitBreaker('firstProvider')` returns exactly the primary
provider's allow verdict), and only primary-provider failures
(`recordServiceFailure('secondProvider')`) increment the count. -/
theorem c7_moderation_failures_not_recorded (maxErrors errorWindow now : Nat) (h : Health) :
    recordServiceFailure "firstProvider" maxErrors errorWindow now h = h ∧
    (checkCircuitBreaker "firstProvider" now h).1
      = (checkCircuitBreaker "secondProvider" now h).1 ∧
    (¬ (0 < h.lastFailureTime ∧ errorWindow < now - h.lastFailureTime) →
      h.failureCount + 1 ≤ maxErrors →
      (recordServiceFailure "secondProvider" maxErrors errorWindow now h).failureCount
        = h.failureCount + 1) := by
  have hT : (("firstProvider" : String) == "firstProvider") = true := rfl
  have hF : (("secondProvider" : String) == "firstProvider") = false := rfl
  refine ⟨rfl, ?_, ?_⟩
  · by_cases hc : h.circuitBreakerTripped = true ∧ h.circuitBreakerResetTime < now
    · simp [checkCircuitBreaker, hT, hF, hc]
    · simp [checkCircuitBreaker, hT, hF, hc]
  · intro hstale hle
    simp only [recordServiceFailure, hF, Bool.false_eq_true, if_false, if_neg hstale]
    rw [if_neg (show ¬ maxErrors < h.failureCount + 1 by omega)]

/-- Witness for c7_moderation_failures_not_recorded on a concrete health
record with two prior failures inside the error window. -/
theorem c7_moderation_failures_not_recorded_witness :
    recordServiceFailure "firstProvider" 100 60000 5000 ⟨2, 1000, 1000, false, 0⟩
      = ⟨2, 1000, 1000, false, 0⟩ ∧
    (recordServiceFailure "secondProvider" 100 60000 5000 ⟨2, 1000, 1000, false, 0⟩).failureCount
      = 3 := by
  refine ⟨(c7_moderation_failures_not_recorded 100 60000 5000 ⟨2, 1000, 1000, false, 0⟩).1, ?_⟩
  exact (c7_moderation_failures_not_recorded 100 60000 5000 ⟨2, 1000, 1000, false, 0⟩).2.2
    (by decide) (by decide)

/-! ### Global burst counter (src/api/config.js lines 26-76) -/

/-- The `globalRequestCounter` object (config.js lines 26-76): a per-second
request counter with a 500/s threshold and a 60 s trip. -/
structure GRC where
  count : Nat
  startTime : Nat
  isCircuitBreakerTripped : Bool
  circuitBreakerResetTime : Nat
deriving DecidableEq, Repr

/-- The `threshold: 500` field (config.js line 29). -/
def GRC.threshold : Nat := 500

/-- `globalRequestCounter.increment()` (config.js lines 34-59): bump the
count, reset it once the second has elapsed, trip the breaker for 60 s when
the count exceeds the threshold, and lazily clear an expired trip.  This
method is DEFINED in the source but never invoked by any route handler: the
dispatcher only calls `isTripped()`. -/
def GRC.increment (g : GRC) (now : Nat) : GRC :=
  let g1 := { g with count := g.count + 1 }
  let g2 := if 1000 < now - g1.startTime then { g1 with count := 0, startTime := now } else g1
  let g3 := if GRC.threshold < g2.count ∧ g2.isCircuitBreakerTripped = false then
      { g2 with isCircuitBreakerTripped := true, circuitBreakerResetTime := now + 60000 }
    else g2
  if g3.isCircuitBreakerTripped ∧ g3.circuitBreakerResetTime < now then
    { g3 with isCircuitBreakerTripped := false }
  else g3

/-- `globalRequestCounter.isTripped()` (config.js lines 62-75): report the
trip state, lazily clearing (and zeroing the count of) an expired trip. -/
def GRC.isTripped (g : GRC) (now : Nat) : Bool × GRC :=
  if g.isCircuitBreakerTripped then
    if g.circuitBreakerResetTime < now then
      (false, { g with isCircuitBreakerTripped := false, count := 0 })
    else (true, g)
  else (false, g)

/-- Iterated `increment` calls at a fixed timestamp, for exercising the
counter logic the dispatcher never invokes. -/
def iterIncrement (now : Nat) : Nat → GRC → GRC
  | 0, g => g
  | n + 1, g => iterIncrement now n (GRC.increment g now)

/-! ### Moderation verdict handling (src/api/completions.js lines 597-668) -/

/-- A parsed moderation verdict, i.e. the result of
`JSON.parse(checkResponse.data.choices[0].message.content)` restricted to the
two fields the source reads. -/
structure Verdict where
  isViolation : Bool
  riskLevel : Int
deriving DecidableEq, Repr

/-- The `details` object of the `content_violation` error
(completions.js lines 623-627). -/
structure ViolationDetails where
  riskLevel : Int
  isPartialCheck : Bool
deriving DecidableEq, Repr

/-- The success value returned by `performModeration`
(completions.js lines 633-638). -/
structure PassInfo where
  passed : Bool
  riskLevel : Int
  isPartialCheck : Bool
deriving DecidableEq, Repr

/-- The verdict-handling step of `performModeration` (completions.js lines
604-638): after parsing, a `content_violation` error is raised iff
`moderationResult.isViolation === true`; otherwise the verdict passes.  No
post-parse validation inspects `riskLevel` — it is only copied into the error
details respectively the pass result. -/
def moderationOutcome (v : Verdict) (isPartial : Bool) : Except ViolationDetails PassInfo :=
  if v.isViolation = true then
    Except.error ⟨v.riskLevel, isPartial⟩
  else
    Except.ok ⟨true, v.riskLevel, isPartial⟩

/-- True when a moderation outcome passed (no violation error). -/
def modPassed (r : Except ViolationDetails PassInfo) : Bool :=
  match r with
  | Except.ok _ => true
  | Except.error _ => false

/-! ### Dispatcher (src/api/completions.js lines 1231-1361, src/server.js) -/

/-- Message content as the dispatcher sees it: a JS string, or any
non-string JSON value (the sentinel test requires
`typeof msg.content === 'string'`). -/
inductive RawContent
  | str (s : List Char)
  | nonString
deriving DecidableEq, Repr

/-- One raw message of the inbound request body. -/
structure RawMsg where
  role : String
  content : RawContent
deriving DecidableEq, Repr

/-- The parts of the inbound chat-completions request the dispatcher reads. -/
structure ChatRequest where
  method : String
  model : String
  messages : List RawMsg
  stream : Bool
  authKey : Option String
deriving DecidableEq, Repr

/-- The self-loop sentinel string (completions.js line 1277). -/
def moderationSentinel : List Char :=
  ("INTERNAL_MODERATION_FLAG: DO_NOT_MODERATE_THIS_IS_ALREADY_A_MODERATION_REQUEST").toList

/-- Whether `needle` occurs at the start of `hay`. -/
def listStartsWith : List Char → List Char → Bool
  | [], _ => true
  | _ :: _, [] => false
  | a :: as, b :: bs => a == b && listStartsWith as bs

/-- JS `hay.includes(needle)`: substring containment. -/
def containsSub (needle : List Char) : List Char → Bool
  | [] => listStartsWith needle []
  | c :: rest => listStartsWith needle (c :: rest) || containsSub needle rest

/-- The self-loop check of the dispatcher (completions.js lines 1274-1278):
some message has role `'system'`, a string content, and that content contains
the sentinel. -/
def isInternalModerationRequest (msgs : List RawMsg) : Bool :=
  msgs.any fun m =>
    m.role == "system" &&
      (match m.content with
        | RawContent.str s => containsSub moderationSentinel s
        | RawContent.nonString => false)

/-- The outcome of one chat-completions request, as visible to the client. -/
inductive Outcome
  | options200
  | methodNotAllowed405
  | globalBreaker429
  | rateLimited429
  | authFailed401
  | moderationUnavailable503
  | moderationError
  | contentViolation
  | primaryUnavailable
  | forwarded
deriving DecidableEq, Repr

/-- What one request did to the observable state, plus which upstream calls
it performed. -/
structure TraceResult where
  outcome : Outcome
  moderationHttpCalls : Nat
  primaryReached : Bool
  headerSetsRateLimit : Nat
  rl : RLState
  grc : GRC
  second : Health
deriving DecidableEq, Repr

/-- The shared skeleton of `handleStream`/`handleNormal` (completions.js
lines 686-884 and 1121-1229), at the level of which upstream calls happen.
When `skipModeration` is false the handler calls `performModeration`, which
first consults `checkCircuitBreaker('firstProvider')`; if the breaker allows,
the moderation HTTP POST happens.  `modNetFails` says whether that POST (or
parsing its body) raises a non-violation error — in which case the handler
calls the no-op `recordServiceFailure('firstProvider')` and rethrows.
Otherwise the parsed verdict `v` is handled by `moderationOutcome`: a
violation answers the client (403 or an SSE error frame) without touching
the primary; a pass (or `skipModeration = true`) proceeds to
`retryRequest(sendToSecondProvider)`, whose first action is
`checkCircuitBreaker('secondProvider')` — the primary provider is reached
exactly when that breaker allows. -/
def handlerRun (now maxErrors errorWindow : Nat) (skipModeration modNetFails : Bool)
    (v : Verdict) (second : Health) : Outcome × Nat × Bool × Health :=
  if skipModeration then
    let c2 := checkCircuitBreaker "secondProvider" now second
    if c2.1 then (Outcome.forwarded, 0, true, c2.2)
    else (Outcome.primaryUnavailable, 0, false, c2.2)
  else
    let c1 := checkCircuitBreaker "firstProvider" now second
    if !c1.1 then (Outcome.moderationUnavailable503, 0, false, c1.2)
    else if modNetFails then
      (Outcome.moderationError, 1, false,
        recordServiceFailure "firstProvider" maxErrors errorWindow now c1.2)
    else if modPassed (moderationOutcome v false) then
      let c2 := checkCircuitBreaker "secondProvider" now c1.2
      if c2.1 then (Outcome.forwarded, 1, true, c2.2)
      else (Outcome.primaryUnavailable, 1, false, c2.2)
    else (Outcome.contentViolation, 1, false, c1.2)

/-- The full request path of `POST /v1/chat/completions`: the server router's
rate-limit gate (server.js lines 47-49, via `rateLimitMiddleware`, which sets
the three `X-RateLimit-*` headers on every invocation), then the dispatcher
(completions.js lines 1231-1361): OPTIONS / method whitelist, the global
burst breaker (`isTripped()` only — `increment()` is never called), the
self-loop sentinel check (which skips moderation, the dispatcher's rate-limit
gate AND auth), then the dispatcher's own second `rateLimitMiddleware` call,
then the bearer-key check, then the handler. -/
def processChatRequest (cfgAuthKey : String) (pathLimit globalIpLimit maxErrors errorWindow now : Nat)
    (req : ChatRequest) (rl : RLState) (grc : GRC) (second : Health)
    (modNetFails : Bool) (v : Verdict) : TraceResult :=
  let r1 := isRateLimited pathLimit globalIpLimit now rl
  if r1.1 then
    ⟨Outcome.rateLimited429, 0, false, 1, r1.2, grc, second⟩
  else if req.method == "OPTIONS" then
    ⟨Outcome.options200, 0, false, 1, r1.2, grc, second⟩
  else if !(req.method == "POST") then
    ⟨Outcome.methodNotAllowed405, 0, false, 1, r1.2, grc, second⟩
  else
    let t := GRC.isTripped grc now
    if t.1 then
      ⟨Outcome.globalBreaker429, 0, false, 1, r1.2, t.2, second⟩
    else if isInternalModerationRequest req.messages then
      let h := handlerRun now maxErrors errorWindow true modNetFails v second
      ⟨h.1, h.2.1, h.2.2.1, 1, r1.2, t.2, h.2.2.2⟩
    else
      let r2 := isRateLimited pathLimit globalIpLimit now r1.2
      if r2.1 then
        ⟨Outcome.rateLimited429, 0, false, 2, r2.2, t.2, second⟩
      else
        let ak := req.authKey.getD ""
        if ak == "" || !(ak == cfgAuthKey) then
          ⟨Outcome.authFailed401, 0, false, 2, r2.2, t.2, second⟩
        else
          let h := handlerRun now maxErrors errorWindow false modNetFails v second
          ⟨h.1, h.2.1, h.2.2.1, 2, r2.2, t.2, h.2.2.2⟩

/-! ### Concrete request and state fixtures -/

/-- A plain user message. -/
def demoUserMsg : RawMsg := ⟨"user", RawContent.str ("hi").toList⟩

/-- A non-sentinel POST request with valid auth and a whitelisted-looking model. -/
def demoReq : ChatRequest := ⟨"POST", "gpt-4-vision", [demoUserMsg], false, some "secret"⟩

/-- A system message carrying the internal moderation sentinel. -/
def sentinelMsg : RawMsg := ⟨"system", RawContent.str moderationSentinel⟩

/-- A POST request whose messages contain the sentinel. -/
def demoSentinelReq : ChatRequest := ⟨"POST", "gpt-4", [sentinelMsg, demoUserMsg], true, none⟩

/-- Rate-limit state with no entries yet. -/
def freshRL : RLState := ⟨none, none, none⟩

/-- The initial global request counter (count 0, untripped). -/
def freshGRC : GRC := ⟨0, 5, false, 0⟩

/-- A healthy primary provider record. -/
def freshHealth : Health := ⟨0, 0, 0, false, 0⟩

/-- A passing verdict. -/
def passVerdict : Verdict := ⟨false, 1⟩

/-- C1 counterexample: a parsed verdict with riskLevel 5 and isViolation
false is NOT treated as a violation — `performModeration` returns a pass and
the request is forwarded to the primary provider instead of being rejected
with a `content_violation` error.  The claimed coercion
`riskLevel = 5 ⇒ isViolation := true` does not exist in the source. -/
theorem c1_risk5_not_coerced :
    moderationOutcome ⟨false, 5⟩ false = Except.ok ⟨true, 5, false⟩ ∧
    (processChatRequest "secret" 60 300 100 60000 5 demoReq freshRL freshGRC freshHealth
        false ⟨false, 5⟩).outcome = Outcome.forwarded := by
  constructor
  · rfl
  · decide

/-- C1 (amended): `performModeration` rejects a parsed verdict as
`content_violation` exactly when its `isViolation` field is `true`; the
`riskLevel` field never influences the decision (changing it cannot change
the outcome) — it is only propagated into the violation details and the
`X-Risk-Level` header. -/
theorem c1_violation_iff_isViolation_field (v : Verdict) (p : Bool) :
    (modPassed (moderationOutcome v p) = true ↔ v.isViolation = false) ∧
    (∀ r : Int, modPassed (moderationOutcome ⟨v.isViolation, r⟩ p)
        = modPassed (moderationOutcome v p)) := by
  constructor
  · cases hv : v.isViolation <;> simp [moderationOutcome, modPassed, hv]
  · intro r
    cases hv : v.isViolation <;> simp [moderationOutcome, modPassed, hv]

/-- C3: a POST chat-completions request whose messages contain the sentinel
in a system message skips moderation entirely: the dispatcher routes it to
the handler with `skipModeration = true`, zero moderation HTTP calls are
performed, and the request reaches the primary provider.  Hypotheses: the
router's rate-limit gate passes the request to the dispatcher, the global
burst breaker is untripped (it can never trip — see C6), and the primary
provider's breaker is closed. -/
theorem c3_sentinel_skips_moderation (cfgAuthKey : String)
    (pathLimit globalIpLimit maxErrors errorWindow now : Nat)
    (req : ChatRequest) (rl : RLState) (grc : GRC) (second : Health)
    (modNetFails : Bool) (v : Verdict)
    (hpost : req.method = "POST")
    (hsent : isInternalModerationRequest req.messages = true)
    (hrl : (isRateLimited pathLimit globalIpLimit now rl).1 = false)
    (hgrc : grc.isCircuitBreakerTripped = false)
    (hsecond : second.circuitBreakerTripped = false) :
    (processChatRequest cfgAuthKey pathLimit globalIpLimit maxErrors errorWindow now
        req rl grc second modNetFails v).moderationHttpCalls = 0 ∧
    (processChatRequest cfgAuthKey pathLimit globalIpLimit maxErrors errorWindow now
        req rl grc second modNetFails v).primaryReached = true ∧
    (processChatRequest cfgAuthKey pathLimit globalIpLimit maxErrors errorWindow now
        req rl grc second modNetFails v).outcome = Outcome.forwarded := by
  simp [processChatRequest, hrl, hpost, hsent, hgrc, handlerRun, checkCircuitBreaker,
    GRC.isTripped, hsecond]

/-- Witness for c3_sentinel_skips_moderation on the concrete sentinel
request, fresh rate-limit state and healthy breakers. -/
theorem c3_sentinel_skips_moderation_witness :
    (processChatRequest "secret" 60 300 100 60000 5 demoSentinelReq freshRL freshGRC
        freshHealth false passVerdict).moderationHttpCalls = 0 ∧
    (processChatRequest "secret" 60 300 100 60000 5 demoSentinelReq freshRL freshGRC
        freshHealth false passVerdict).primaryReached = true ∧
    (processChatRequest "secret" 60 300 100 60000 5 demoSentinelReq freshRL freshGRC
        freshHealth false passVerdict).outcome = Outcome.forwarded :=
  c3_sentinel_skips_moderation "secret" 60 300 100 60000 5 demoSentinelReq freshRL freshGRC
    freshHealth false passVerdict rfl (by decide) (by decide) rfl rfl

/-- Modelled from the spec: matching of the inbound model against the
`WHITELISTED_MODELS` configuration, supporting `*` glob suffixes (exact match
otherwise).  No implementation of this exists anywhere under src/ — the
variable appears only in `.env.example`, which documents that matching models
skip content moderation. -/
def whitelistMatches (patterns : List (List Char)) (model : List Char) : Bool :=
  patterns.any fun p =>
    match p.reverse with
    | '*' :: restRev => listStartsWith restRev.reverse model
    | _ => p == model

/-- The `WHITELISTED_MODELS` example documented in `.env.example`. -/
def demoWhitelist : List (List Char) :=
  [("gpt-4-vision").toList, ("claude-3-opus*").toList, ("gpt-4*").toList]

/-- C9: the dispatcher never consults any model whitelist.  The model
"gpt-4-vision" matches the documented WHITELISTED_MODELS example, yet the
pipeline's behavior is identical for every model string, and the concrete
request with that model still performs one moderation HTTP call before being
forwarded — moderation is not skipped. -/
theorem c9_whitelist_not_implemented :
    whitelistMatches demoWhitelist ("gpt-4-vision").toList = true ∧
    (∀ m : String,
      processChatRequest "secret" 60 300 100 60000 5 { demoReq with model := m }
          freshRL freshGRC freshHealth false passVerdict
        = processChatRequest "secret" 60 300 100 60000 5 demoReq
            freshRL freshGRC freshHealth false passVerdict) ∧
    (processChatRequest "secret" 60 300 100 60000 5 demoReq freshRL freshGRC freshHealth
        false passVerdict).moderationHttpCalls = 1 ∧
    (processChatRequest "secret" 60 300 100 60000 5 demoReq freshRL freshGRC freshHealth
        false passVerdict).outcome = Outcome.forwarded := by
  refine ⟨by decide, fun m => rfl, by decide, by decide⟩

/-- The handler never produces the burst-breaker outcome: that 429 is
emitted only by the dispatcher's `isTripped()` gate. -/
theorem handlerRun_not_burst (now maxErrors errorWindow : Nat) (skip mnf : Bool)
    (v : Verdict) (h : Health) :
    (handlerRun now maxErrors errorWindow skip mnf v h).1 ≠ Outcome.globalBreaker429 := by
  unfold handlerRun
  split_ifs <;> simp [apply_ite Prod.fst] <;> split_ifs <;> simp

set_option maxHeartbeats 1600000 in
/-- The handler never produces a rate-limit outcome either: the 429s come
only from the middleware gates. -/
theorem handlerRun_not_rate_limited (now maxErrors errorWindow : Nat) (skip mnf : Bool)
    (v : Verdict) (h : Health) :
    (handlerRun now maxErrors errorWindow skip mnf v h).1 ≠ Outcome.rateLimited429 := by
  unfold handlerRun
  split_ifs <;> simp [apply_ite Prod.fst] <;> split_ifs <;> simp

/-- With an untripped global counter, the dispatcher leaves the counter
untouched and never answers with the burst-breaker 429: it only ever calls
`isTripped()`, and `increment()` is invoked nowhere in the source. -/
theorem processChat_burst_gate_inert (cfgAuthKey : String)
    (pathLimit globalIpLimit maxErrors errorWindow now : Nat)
    (req : ChatRequest) (rl : RLState) (grc : GRC) (second : Health)
    (modNetFails : Bool) (v : Verdict)
    (hgrc : grc.isCircuitBreakerTripped = false) :
    (processChatRequest cfgAuthKey pathLimit globalIpLimit maxErrors errorWindow now
        req rl grc second modNetFails v).grc = grc ∧
    (processChatRequest cfgAuthKey pathLimit globalIpLimit maxErrors errorWindow now
        req rl grc second modNetFails v).outcome ≠ Outcome.globalBreaker429 := by
  have ht : GRC.isTripped grc now = (false, grc) := by
    simp [GRC.isTripped, hgrc]
  constructor
  · simp only [processChatRequest, ht]
    split_ifs <;> rfl
  · simp only [processChatRequest, ht]
    split_ifs <;>
      first
        | rfl
        | exact handlerRun_not_burst now maxErrors errorWindow true modNetFails v second
        | exact handlerRun_not_burst now maxErrors errorWindow false modNetFails v second
        | simp_all

/-- A burst of n identical chat requests processed in sequence, threading the
rate-limit, global-counter and health state; returns whether any request was
answered with the burst-breaker 429, together with the final global counter. -/
def runChatBurst : Nat → RLState → GRC → Health → Bool × GRC
  | 0, _, g, _ => (false, g)
  | n + 1, rl, g, h =>
    let t := processChatRequest "secret" 60 300 100 60000 5 demoReq rl g h false passVerdict
    let r := runChatBurst n t.rl t.grc t.second
    (decide (t.outcome = Outcome.globalBreaker429) || r.1, r.2)

/-- Any burst starting from the untripped initial counter never sees the
burst-breaker 429 and never changes the counter. -/
theorem runChatBurst_inert (n : Nat) : ∀ (rl : RLState) (h : Health),
    runChatBurst n rl freshGRC h = (false, freshGRC) := by
  induction n with
  | zero => intro rl h; rfl
  | succ n ih =>
    intro rl h
    have hg := processChat_burst_gate_inert "secret" 60 300 100 60000 5 demoReq rl freshGRC h
      false passVerdict rfl
    rw [runChatBurst]
    rw [hg.1, ih]
    simp [hg.2]

/-- Splitting an increment iteration. -/
theorem iterIncrement_add (now a b : Nat) : ∀ g : GRC,
    iterIncrement now (a + b) g = iterIncrement now b (iterIncrement now a g) := by
  induction a with
  | zero => intro g; rw [Nat.zero_add]; rfl
  | succ n ih =>
    intro g
    have hs : n + 1 + b = (n + b) + 1 := by omega
    rw [hs, iterIncrement, iterIncrement, ih]

/-- Below the 500/s threshold, same-second increments simply accumulate. -/
theorem iterIncrement_below_threshold (k : Nat) : ∀ c : Nat, c + k ≤ 500 →
    iterIncrement 5 k ⟨c, 5, false, 0⟩ = ⟨c + k, 5, false, 0⟩ := by
  induction k with
  | zero => intro c _; rfl
  | succ n ih =>
    intro c hc
    have hinc : GRC.increment ⟨c, 5, false, 0⟩ 5 = ⟨c + 1, 5, false, 0⟩ := by
      have hnot : ¬ (500 < c + 1) := by omega
      simp [GRC.increment, GRC.threshold, hnot]
    rw [iterIncrement, hinc, ih (c + 1) (by omega)]
    congr 1
    omega

/-- C6: the global burst breaker is dead code.  The dispatcher consults
`globalRequestCounter.isTripped()` but `increment()` is never called anywhere
in the source, so a burst of 501 chat requests within one second — which the
claim says must trip the breaker for 60 s — is never answered with the
`global_circuit_breaker_tripped` 429 and leaves the counter at 0; had each
request invoked `increment()` as the claim describes, the 501st call would
have tripped the breaker. -/
theorem c6_burst_breaker_never_trips :
    runChatBurst 501 freshRL freshGRC freshHealth = (false, freshGRC) ∧
    freshGRC.count = 0 ∧
    (iterIncrement 5 501 freshGRC).isCircuitBreakerTripped = true := by
  refine ⟨runChatBurst_inert 501 freshRL freshHealth, rfl, ?_⟩
  have h1 : (501 : Nat) = 500 + 1 := by norm_num
  have h2 : iterIncrement 5 500 freshGRC = ⟨500, 5, false, 0⟩ := by
    have := iterIncrement_below_threshold 500 0 (by norm_num)
    simpa [freshGRC] using this
  rw [show freshGRC = ⟨0, 5, false, 0⟩ from rfl] at h2 ⊢
  rw [h1, iterIncrement_add, h2]
  decide

/-- Evaluation of `isRateLimited` on present cells inside their minute
window: no expiry happens and each counter is incremented once. -/
theorem isRateLimited_in_window (pathLimit globalIpLimit now : Nat) (p ip g : CounterCell)
    (hp : now - p.windowStart ≤ 60000) (hip : now - ip.windowStart ≤ 60000)
    (hg : now - g.windowStart ≤ 60000) :
    isRateLimited pathLimit globalIpLimit now ⟨some p, some ip, some g⟩
      = (decide (effPathLimit pathLimit < p.count + 1)
          || decide (effPathLimit pathLimit / 4 < ip.count + 1)
          || decide (globalIpLimit < g.count + 1),
         ⟨some ⟨p.count + 1, p.windowStart⟩, some ⟨ip.count + 1, ip.windowStart⟩,
          some ⟨g.count + 1, g.windowStart⟩⟩) := by
  simp only [isRateLimited, initCell, expireCell]
  rw [if_neg (by omega), if_neg (by omega), if_neg (by omega)]

/-- C10: a non-sentinel POST chat-completions request that passes the server
router's rate-limit gate goes through the rate limiter a second time inside
the chat dispatcher: each of the three counters ends up incremented by 2, the
`X-RateLimit-*` headers are computed and set twice, and the request survives
the combined gates exactly when each counter plus 2 is within its tier limit
— so the effective per-window capacity is about half of each configured
limit.  Hypotheses: all three counter cells exist and are inside their minute
window, the request is a non-sentinel POST, the global breaker is untripped,
and the router's gate (first pass) does not limit. -/
theorem c10_rate_limiter_runs_twice (cfgAuthKey : String)
    (pathLimit globalIpLimit maxErrors errorWindow now : Nat)
    (req : ChatRequest) (p ip g : CounterCell) (grc : GRC) (second : Health)
    (modNetFails : Bool) (v : Verdict)
    (hpost : req.method = "POST")
    (hsent : isInternalModerationRequest req.messages = false)
    (hgrc : grc.isCircuitBreakerTripped = false)
    (hp : now - p.windowStart ≤ 60000) (hip : now - ip.windowStart ≤ 60000)
    (hg : now - g.windowStart ≤ 60000)
    (hpass1 : (isRateLimited pathLimit globalIpLimit now ⟨some p, some ip, some g⟩).1 = false) :
    (processChatRequest cfgAuthKey pathLimit globalIpLimit maxErrors errorWindow now
        req ⟨some p, some ip, some g⟩ grc second modNetFails v).rl
      = ⟨some ⟨p.count + 2, p.windowStart⟩, some ⟨ip.count + 2, ip.windowStart⟩,
         some ⟨g.count + 2, g.windowStart⟩⟩ ∧
    (processChatRequest cfgAuthKey pathLimit globalIpLimit maxErrors errorWindow now
        req ⟨some p, some ip, some g⟩ grc second modNetFails v).headerSetsRateLimit = 2 ∧
    ((processChatRequest cfgAuthKey pathLimit globalIpLimit maxErrors errorWindow now
        req ⟨some p, some ip, some g⟩ grc second modNetFails v).outcome ≠ Outcome.rateLimited429
      ↔ (p.count + 2 ≤ effPathLimit pathLimit ∧ ip.count + 2 ≤ effPathLimit pathLimit / 4
          ∧ g.count + 2 ≤ globalIpLimit)) := by
  have ht : GRC.isTripped grc now = (false, grc) := by
    simp [GRC.isTripped, hgrc]
  have h1 := isRateLimited_in_window pathLimit globalIpLimit now p ip g hp hip hg
  have h2 := isRateLimited_in_window pathLimit globalIpLimit now
    ⟨p.count + 1, p.windowStart⟩ ⟨ip.count + 1, ip.windowStart⟩ ⟨g.count + 1, g.windowStart⟩
    hp hip hg
  simp only at h2
  rw [h1] at hpass1
  simp only at hpass1
  simp only [processChatRequest, ht, h1, h2, hpass1, hsent, hpost]
  simp only [Bool.false_eq_true, if_false, decide_eq_true_eq, reduceCtorEq]
  norm_num
  rw [if_neg (show ¬ ("POST" : String) = "OPTIONS" from by decide)]
  split_ifs with hgate2 hauth
  · exact ⟨rfl, rfl, iff_of_false (by simp) (by omega)⟩
  · exact ⟨rfl, rfl, iff_of_true (by simp) (by push_neg at hgate2; omega)⟩
  · refine ⟨rfl, rfl, iff_of_true ?_ (by push_neg at hgate2; omega)⟩
    exact handlerRun_not_rate_limited now maxErrors errorWindow false modNetFails v second

/-- Witness for c10_rate_limiter_runs_twice: a fresh-window state with all
counters at 0, the demo request and healthy breakers end up with every
counter at 2 after one request. -/
theorem c10_rate_limiter_runs_twice_witness :
    (processChatRequest "secret" 60 300 100 60000 5 demoReq
        ⟨some ⟨0, 5⟩, some ⟨0, 5⟩, some ⟨0, 5⟩⟩ freshGRC freshHealth false passVerdict).rl
      = ⟨some ⟨2, 5⟩, some ⟨2, 5⟩, some ⟨2, 5⟩⟩ ∧
    (processChatRequest "secret" 60 300 100 60000 5 demoReq
        ⟨some ⟨0, 5⟩, some ⟨0, 5⟩, some ⟨0, 5⟩⟩ freshGRC freshHealth false passVerdict).headerSetsRateLimit
      = 2 ∧
    ((processChatRequest "secret" 60 300 100 60000 5 demoReq
        ⟨some ⟨0, 5⟩, some ⟨0, 5⟩, some ⟨0, 5⟩⟩ freshGRC freshHealth false passVerdict).outcome
        ≠ Outcome.rateLimited429
      ↔ (0 + 2 ≤ effPathLimit 60 ∧ 0 + 2 ≤ effPathLimit 60 / 4 ∧ 0 + 2 ≤ 300)) :=
  c10_rate_limiter_runs_twice "secret" 60 300 100 60000 5 demoReq ⟨0, 5⟩ ⟨0, 5⟩ ⟨0, 5⟩
    freshGRC freshHealth false passVerdict rfl (by decide) rfl (by decide) (by decide)
    (by decide) (by decide)

/-! ### Oversize sampler (src/api/completions.js lines 886-1118) -/

/-- A message as the sampler sees it.  `performModeration` hands the sampler
messages whose content is always a string (non-string contents are
pre-stringified with `JSON.stringify`, and the sampler itself stringifies the
same way wherever it re-reads a content), so content is modelled as the
resulting character sequence. -/
structure JsMsg where
  role : String
  content : List Char
deriving DecidableEq, Repr

/-- `calculateTotalLength(messages)` (completions.js lines 887-894). -/
def calculateTotalLength (msgs : List JsMsg) : Nat :=
  msgs.foldl (fun total m => total + m.content.length) 0

/-- The marker appended to a truncated non-user message
(completions.js lines 940-941), 19 characters. -/
def nonUserTruncMarker : List Char := ("\n...[系统内容过长，已截取]...").toList

/-- The separator between head, middle and tail segments of a single oversize
user message (completions.js line 994), 18 characters. -/
def userSegmentMarker : List Char := ("\n...[内容过长，已截取]...\n").toList

/-- The marker appended to a head-truncated user-message excerpt
(completions.js lines 1064-1065), 17 characters. -/
def userTailTruncMarker : List Char := ("\n...[内容过长，已截取]...").toList

/-- The suffix of the final hard clamp of a single-user sample
(completions.js line 998), 8 characters. -/
def hardTruncMarker : List Char := ("...[已截断]").toList

/-- The replacement system message used when even pruning cannot fit the
budget (completions.js line 1103). -/
def tooLongNotice : List Char := ("内容过长，无法处理。请减少输入内容后重试。").toList

/-- The non-user half of the sampler (completions.js lines 924-952):
system/assistant/tool messages are appended whole while they fit within the
reserved budget `nonUserMax = Math.floor(maxLength * 0.5)`; a final oversize
message is cut to `Math.floor(available * 0.8) = available * 4 / 5` characters
plus the marker provided more than 200 characters remain; then the loop
breaks.  Returns the list of appended messages and the updated
`currentLength`. -/
def addNonUserMessages (nonUserMax : Nat) : List JsMsg → Nat → List JsMsg × Nat
  | [], cur => ([], cur)
  | m :: rest, cur =>
    if cur + m.content.length ≤ nonUserMax then
      let r := addNonUserMessages nonUserMax rest (cur + m.content.length)
      (m :: r.1, r.2)
    else
      let avail := nonUserMax - cur
      if 200 < avail then
        let truncated := m.content.take (avail * 4 / 5) ++ nonUserTruncMarker
        ([⟨m.role, truncated⟩], cur + truncated.length)
      else ([], cur)

/-- Single-user-message sampling (completions.js lines 968-1005): head,
random-offset middle and tail segments of `Math.floor(remaining / 3.5)
= remaining * 2 / 7` characters each (the `Math.min` with
`Math.floor(remaining / 3)` is kept as in the source), joined by the segment
marker, with a final hard clamp to the remaining budget.  `middleStart`
models `Math.floor(Math.random() * (content.length - segLen))`; substring
clamping matches JS `String.prototype.substring`. -/
def oneUserSample (remaining middleStart : Nat) (c : List Char) : List Char :=
  let segmentLength := remaining / 3
  let safeSegmentLength := min segmentLength (remaining * 2 / 7)
  let startSegment := c.take safeSegmentLength
  let middleSegment := (c.drop middleStart).take safeSegmentLength
  let endSegment := c.drop (c.length - safeSegmentLength)
  let extractedContent := startSegment ++ userSegmentMarker ++ middleSegment
    ++ userSegmentMarker ++ endSegment
  if remaining < extractedContent.length then
    extractedContent.take (remaining - 30) ++ hardTruncMarker
  else extractedContent

/-- Insertion of a message into a list sorted by ascending content length. -/
def insertByLen (m : JsMsg) : List JsMsg → List JsMsg
  | [] => [m]
  | x :: xs =>
    if m.content.length ≤ x.content.length then m :: x :: xs
    else x :: insertByLen m xs

/-- The sort of `messageLengths` by ascending length (completions.js line
1020, `sort((a, b) => a.length - b.length)`). -/
def sortByLen : List JsMsg → List JsMsg
  | [] => []
  | m :: rest => insertByLen m (sortByLen rest)

/-- First multi-user pass (completions.js lines 1026-1039): walk the sorted
messages, adding each whole message that still fits (marking it consumed) and
breaking once `usedLength >= remainingLength`.  Returns the picked messages,
the unconsumed leftovers in order, and the final `usedLength`. -/
def pickWholeMessages (remaining : Nat) : List JsMsg → Nat → List JsMsg × List JsMsg × Nat
  | [], used => ([], [], used)
  | m :: rest, used =>
    if used + m.content.length ≤ remaining then
      let used2 := used + m.content.length
      if remaining ≤ used2 then ([m], rest, used2)
      else
        let r := pickWholeMessages remaining rest used2
        (m :: r.1, r.2.1, r.2.2)
    else
      if remaining ≤ used then ([], m :: rest, used)
      else
        let r := pickWholeMessages remaining rest used
        (r.1, m :: r.2.1, r.2.2)

/-- Second multi-user pass (completions.js lines 1049-1077): walk the
shuffled leftovers; stop once fewer than 200 characters remain; from each
message take `Math.min(available - 50, Math.floor(length / 2))` head
characters plus the marker when that is more than 100 characters, and stop
once `usedLength >= remainingLength`. -/
def pickExcerpts (remaining : Nat) : List JsMsg → Nat → List JsMsg × Nat
  | [], used => ([], used)
  | m :: rest, used =>
    let avail := remaining - used
    if avail < 200 then ([], used)
    else
      let truncateLength := min (avail - 50) (m.content.length / 2)
      if 100 < truncateLength then
        let ex := m.content.take truncateLength ++ userTailTruncMarker
        let used2 := used + ex.length
        if remaining ≤ used2 then ([⟨"user", ex⟩], used2)
        else
          let r := pickExcerpts remaining rest used2
          (⟨"user", ex⟩ :: r.1, r.2)
      else pickExcerpts remaining rest used

/-- The final safety pruning (completions.js lines 1089-1094): remove the
last user-role message, if any. -/
def removeLastUser : List JsMsg → List JsMsg
  | [] => []
  | m :: rest =>
    if rest.any (fun x => x.role == "user") then m :: removeLastUser rest
    else if m.role == "user" then rest
    else m :: removeLastUser rest

/-- The record returned by `extractRandomSegments`. -/
structure ExtractResult where
  messages : List JsMsg
  isExtracted : Bool
  originalLength : Nat
  extractedLength : Nat
deriving DecidableEq, Repr

/-- `extractRandomSegments(messages, maxLength = 30000)` (completions.js
lines 897-1118).  Randomness is modelled by parameters: `middleStart` stands
for the random middle offset of the single-user case, and `shuffle` stands
for the `sort(() => Math.random() - 0.5)` reordering of the leftover user
messages — any reordering function is allowed, which subsumes every
permutation the source can produce.  When the total normalized length is
within the budget the input passes through unchanged; otherwise non-user
messages get up to half the budget, user messages the rest, with a final
safety check that prunes the last user message and, failing that, replaces
the bundle with a single system notice. -/
def extractRandomSegments (middleStart : Nat) (shuffle : List JsMsg → List JsMsg)
    (messages : List JsMsg) (maxLength : Nat) : ExtractResult :=
  let totalLength := calculateTotalLength messages
  if totalLength ≤ maxLength then
    ⟨messages, false, totalLength, totalLength⟩
  else
    let userMessages := messages.filter (fun m => m.role == "user")
    let nonUserMessages := messages.filter (fun m => !(m.role == "user"))
    let nonUserMaxLength := maxLength / 2
    let r0 := addNonUserMessages nonUserMaxLength nonUserMessages 0
    let currentLength := r0.2
    let remainingLength := maxLength - currentLength
    if userMessages.isEmpty then
      ⟨r0.1, true, totalLength, currentLength⟩
    else
      let extracted1 :=
        match userMessages with
        | [m] =>
          if m.content.length ≤ remainingLength then r0.1 ++ [m]
          else r0.1 ++ [⟨"user", oneUserSample remainingLength middleStart m.content⟩]
        | _ =>
          let sorted := sortByLen userMessages
          let rw := pickWholeMessages remainingLength sorted 0
          if rw.2.2 < remainingLength then
            let re := pickExcerpts remainingLength (shuffle rw.2.1) rw.2.2
            (r0.1 ++ rw.1) ++ re.1
          else r0.1 ++ rw.1
      let extractedLength := calculateTotalLength extracted1
      if maxLength < extractedLength then
        let pruned := removeLastUser extracted1
        let newLen := calculateTotalLength pruned
        if maxLength < newLen then
          ⟨[⟨"system", tooLongNotice⟩], true, totalLength, 0⟩
        else ⟨pruned, true, totalLength, extractedLength⟩
      else ⟨extracted1, true, totalLength, extractedLength⟩

/-- Unfolding of the total-length fold. -/
theorem calcTotal_go (l : List JsMsg) : ∀ n : Nat,
    l.foldl (fun t m => t + m.content.length) n = n + calculateTotalLength l := by
  induction l with
  | nil => intro n; simp [calculateTotalLength]
  | cons m rest ih =>
    intro n
    simp only [calculateTotalLength, List.foldl_cons, Nat.zero_add] at ih ⊢
    rw [ih (n + m.content.length), ih m.content.length]
    omega

/-- Total length of a cons. -/
theorem calcTotal_cons (m : JsMsg) (l : List JsMsg) :
    calculateTotalLength (m :: l) = m.content.length + calculateTotalLength l := by
  simp only [calculateTotalLength, List.foldl_cons, Nat.zero_add]
  exact calcTotal_go l m.content.length

/-- Total length of an append. -/
theorem calcTotal_append (a b : List JsMsg) :
    calculateTotalLength (a ++ b) = calculateTotalLength a + calculateTotalLength b := by
  induction a with
  | nil => simp [calculateTotalLength]
  | cons m rest ih => simp only [List.cons_append, calcTotal_cons, ih]; omega

/-- The non-user pass reports its own total and stays within the reserved
budget: from `cur ≤ nonUserMax` the result length equals `cur` plus the total
of the appended messages and still satisfies the budget. -/
theorem addNonUser_spec (nonUserMax : Nat) : ∀ (l : List JsMsg) (cur : Nat),
    cur ≤ nonUserMax →
    (addNonUserMessages nonUserMax l cur).2
        = cur + calculateTotalLength (addNonUserMessages nonUserMax l cur).1 ∧
    (addNonUserMessages nonUserMax l cur).2 ≤ nonUserMax := by
  intro l
  induction l with
  | nil =>
    intro cur hcur
    simp [addNonUserMessages, calculateTotalLength, hcur]
  | cons m rest ih =>
    intro cur hcur
    simp only [addNonUserMessages]
    split
    · rename_i hfit
      obtain ⟨ih1, ih2⟩ := ih (cur + m.content.length) hfit
      constructor
      · simp only [calcTotal_cons, ih1]
        omega
      · exact ih2
    · rename_i hnofit
      split
      · rename_i havail
        have hmark : nonUserTruncMarker.length = 19 := by decide
        have htake : (m.content.take ((nonUserMax - cur) * 4 / 5)).length
            ≤ (nonUserMax - cur) * 4 / 5 := by
          simp [List.length_take]
        have hdiv : (nonUserMax - cur) * 4 / 5 * 5 ≤ (nonUserMax - cur) * 4 :=
          Nat.div_mul_le_self _ _
        constructor
        · simp [calcTotal_cons, calculateTotalLength]
        · simp only [List.length_append, hmark]
          omega
      · exact ⟨by simp [calculateTotalLength], hcur⟩

/-- The whole-message pass reports its own total and never exceeds the user
budget. -/
theorem pickWhole_spec (remaining : Nat) : ∀ (l : List JsMsg) (used : Nat),
    used ≤ remaining →
    (pickWholeMessages remaining l used).2.2
        = used + calculateTotalLength (pickWholeMessages remaining l used).1 ∧
    (pickWholeMessages remaining l used).2.2 ≤ remaining := by
  intro l
  induction l with
  | nil =>
    intro used hused
    simp [pickWholeMessages, calculateTotalLength, hused]
  | cons m rest ih =>
    intro used hused
    simp only [pickWholeMessages]
    split
    · rename_i hfit
      split
      · rename_i hbreak
        exact ⟨by simp [calcTotal_cons, calculateTotalLength], hfit⟩
      · obtain ⟨ih1, ih2⟩ := ih (used + m.content.length) hfit
        exact ⟨by simp only [calcTotal_cons, ih1]; omega, ih2⟩
    · split
      · exact ⟨by simp [calculateTotalLength], hused⟩
      · obtain ⟨ih1, ih2⟩ := ih used hused
        exact ⟨ih1, ih2⟩

/-- The excerpt pass reports its own total and never exceeds the user
budget. -/
theorem pickExcerpts_spec (remaining : Nat) : ∀ (l : List JsMsg) (used : Nat),
    used ≤ remaining →
    (pickExcerpts remaining l used).2
        = used + calculateTotalLength (pickExcerpts remaining l used).1 ∧
    (pickExcerpts remaining l used).2 ≤ remaining := by
  intro l
  induction l with
  | nil =>
    intro used hused
    simp [pickExcerpts, calculateTotalLength, hused]
  | cons m rest ih =>
    intro used hused
    simp only [pickExcerpts]
    split
    · rename_i hsmall
      simp [calculateTotalLength, hused]
    · rename_i hsmall
      split
      · rename_i hbig
        have hmark : userTailTruncMarker.length = 17 := by decide
        have htake : (m.content.take (min (remaining - used - 50) (m.content.length / 2))).length
            ≤ min (remaining - used - 50) (m.content.length / 2) := by
          simp [List.length_take]
        have hmin : min (remaining - used - 50) (m.content.length / 2)
            ≤ remaining - used - 50 := min_le_left _ _
        have hexlen : (m.content.take (min (remaining - used - 50) (m.content.length / 2))
            ++ userTailTruncMarker).length ≤ remaining - used - 33 := by
          simp only [List.length_append, hmark]
          omega
        split
        · rename_i hbreak
          refine ⟨by simp [calcTotal_cons, calculateTotalLength], ?_⟩
          omega
        · rename_i hnobreak
          have hused2 : used + (m.content.take (min (remaining - used - 50)
              (m.content.length / 2)) ++ userTailTruncMarker).length ≤ remaining := by
            omega
          obtain ⟨ih1, ih2⟩ := ih _ hused2
          exact ⟨by simp only [calcTotal_cons, ih1]; omega, ih2⟩
      · exact ih used hused

/-- The single-user sample never exceeds the remaining budget (the final
clamp guarantees it outright once at least 30 characters remain). -/
theorem oneUserSample_le (remaining middleStart : Nat) (c : List Char)
    (h30 : 30 ≤ remaining) :
    (oneUserSample remaining middleStart c).length ≤ remaining := by
  simp only [oneUserSample]
  split
  · rename_i hover
    have hmark : hardTruncMarker.length = 8 := by decide
    simp only [List.length_append, hmark, List.length_take]
    omega
  · rename_i hok
    omega

/-- Total length of the empty bundle. -/
theorem calcTotal_nil : calculateTotalLength [] = 0 := rfl

/-- C4: for every input message list, every random middle offset and every
leftover reordering, the oversize sampler returns a bundle whose total
content length is at most 30000 characters, and an input whose total is
already within 30000 passes through unchanged with isExtracted = false. -/
theorem c4_sampling_bound (middleStart : Nat) (shuffle : List JsMsg → List JsMsg)
    (messages : List JsMsg) :
    calculateTotalLength (extractRandomSegments middleStart shuffle messages 30000).messages
      ≤ 30000 ∧
    (calculateTotalLength messages ≤ 30000 →
      (extractRandomSegments middleStart shuffle messages 30000).messages = messages ∧
      (extractRandomSegments middleStart shuffle messages 30000).isExtracted = false) := by
  by_cases htot : calculateTotalLength messages ≤ 30000
  · refine ⟨?_, fun _ => ?_⟩
    · simp only [extractRandomSegments, if_pos htot]
      exact htot
    · simp [extractRandomSegments, if_pos htot]
  · refine ⟨?_, fun h => absurd h htot⟩
    simp only [extractRandomSegments, if_neg htot]
    set U := List.filter (fun m => m.role == "user") messages with hU
    set N := List.filter (fun m => !m.role == "user") messages with hN
    set r0 := addNonUserMessages (30000 / 2) N 0 with hr0
    clear_value U N r0
    obtain ⟨he0, hle0⟩ := addNonUser_spec (30000 / 2) N 0 (by omega)
    rw [← hr0] at he0 hle0
    have hcur : r0.2 ≤ 15000 := by omega
    by_cases hUe : U.isEmpty = true
    · rw [if_pos hUe]
      simp only
      omega
    · rw [if_neg hUe]
      rcases U with - | ⟨m, - | ⟨m2, tail⟩⟩
      · simp at hUe
      · -- single user message
        simp only
        split
        · rename_i hfits
          have hx : calculateTotalLength (r0.1 ++ [m]) ≤ 30000 := by
            rw [calcTotal_append, calcTotal_cons, calcTotal_nil]
            omega
          rw [if_neg (by omega)]
          exact hx
        · rename_i hbig
          have hs := oneUserSample_le (30000 - r0.2) middleStart m.content (by omega)
          have hx : calculateTotalLength
              (r0.1 ++ [⟨"user", oneUserSample (30000 - r0.2) middleStart m.content⟩])
              ≤ 30000 := by
            rw [calcTotal_append, calcTotal_cons, calcTotal_nil]
            simp only
            omega
          rw [if_neg (by omega)]
          exact hx
      · -- several user messages
        simp only
        obtain ⟨hw1, hw2⟩ := pickWhole_spec (30000 - r0.2)
          (sortByLen (m :: m2 :: tail)) 0 (by omega)
        split
        · rename_i hmore
          obtain ⟨he1, he2⟩ := pickExcerpts_spec (30000 - r0.2)
            (shuffle (pickWholeMessages (30000 - r0.2) (sortByLen (m :: m2 :: tail)) 0).2.1)
            (pickWholeMessages (30000 - r0.2) (sortByLen (m :: m2 :: tail)) 0).2.2 hw2
          have hx : calculateTotalLength
              (r0.1 ++ (pickWholeMessages (30000 - r0.2) (sortByLen (m :: m2 :: tail)) 0).1
                ++ (pickExcerpts (30000 - r0.2)
                    (shuffle (pickWholeMessages (30000 - r0.2)
                      (sortByLen (m :: m2 :: tail)) 0).2.1)
                    (pickWholeMessages (30000 - r0.2) (sortByLen (m :: m2 :: tail)) 0).2.2).1)
              ≤ 30000 := by
            rw [calcTotal_append, calcTotal_append]
            omega
          rw [if_neg (by omega)]
          exact hx
        · rename_i hdone
          have hx : calculateTotalLength
              (r0.1 ++ (pickWholeMessages (30000 - r0.2) (sortByLen (m :: m2 :: tail)) 0).1)
              ≤ 30000 := by
            rw [calcTotal_append]
            omega
          rw [if_neg (by omega)]
          exact hx

/-- Witness for c4_sampling_bound on a two-character message, which passes
through unchanged. -/
theorem c4_sampling_bound_witness :
    calculateTotalLength
      (extractRandomSegments 0 id [⟨"user", ("hi").toList⟩] 30000).messages ≤ 30000 ∧
    (extractRandomSegments 0 id [⟨"user", ("hi").toList⟩] 30000).messages
      = [⟨"user", ("hi").toList⟩] ∧
    (extractRandomSegments 0 id [⟨"user", ("hi").toList⟩] 30000).isExtracted = false :=
  ⟨(c4_sampling_bound 0 id [⟨"user", ("hi").toList⟩]).1,
   (c4_sampling_bound 0 id [⟨"user", ("hi").toList⟩]).2 (by decide)⟩

end TransitFilter
